import Mathlib

/-!
Shallow embedding of `lab-grading/grade.py`: a script that reads lab
attendance from one spreadsheet and writes grades (and optionally a TA
acronym) into a class register spreadsheet.

Remote fetches are modelled by passing the fetched cell data as explicit
arguments; Python runtime errors (`IndexError`, `KeyError`, `ValueError`)
are modelled by `Option`, `none` meaning the script raises.  Python strings
are modelled as `String`, or as `List Char` where character indexing and
slicing matter.
-/

set_option autoImplicit false

namespace Grade

/-- A row of spreadsheet cells, as returned by the Sheets API: a list of cell
contents.  The API omits trailing empty cells, so a row may be shorter than
the requested width, even empty. -/
abbrev Row := List String

/-- Python `s.find(c)`: index of the first occurrence of `c`, `-1` if absent. -/
def pyFind (s : List Char) (c : Char) : Int :=
  match s with
  | [] => -1
  | x :: rest =>
    if x == c then 0
    else if pyFind rest c = -1 then -1 else pyFind rest c + 1

/-- Effective bound of a Python slice index for a sequence of length `n`:
a negative index counts from the end, and bounds are clamped to `[0, n]`. -/
def sliceBound (n : Nat) (i : Int) : Nat :=
  if i < 0 then ((n : Int) + i).toNat else min i.toNat n

/-- Python slice `s[a:b]`. -/
def pySlice (s : List Char) (a b : Int) : List Char :=
  (s.take (sliceBound s.length b)).drop (sliceBound s.length a)

/-- Python slice `s[a:]`. -/
def pySliceFrom (s : List Char) (a : Int) : List Char :=
  s.drop (sliceBound s.length a)

/-- Python `int(s)` restricted to what the script feeds it: a non-empty
string of decimal digits parses, anything else (the empty slice, a letter)
raises `ValueError`, modelled as `none`. -/
def int_of_digits? (s : List Char) : Option Nat :=
  if s ≠ [] ∧ s.all Char.isDigit = true then
    some (s.foldl (fun a c => 10 * a + (c.toNat - 48)) 0)
  else none

/-- One element of the batched update request body (what
`_make_value_range` returns). -/
structure ValueRange where
  range : String
  majorDimension : String
  values : List Row
  deriving DecidableEq, Repr

/-- Embedding of `_make_value_range(sheet, col, idx, value)` (grade.py lines 103-118):
builds the `ValueRange` that writes `value` at row `col_start + idx` of the
column encoded by the range template `col` (e.g. `"D2:D"`).  The starting
row is read as the single character before the colon; `none` models the
`ValueError` raised by `int()` when that slice is not a digit. -/
def _make_value_range (sheet : String) (col : List Char) (idx : Nat)
    (value : String) : Option ValueRange :=
  let pos := pyFind col ':'
  match int_of_digits? (pySlice col (pos - 1) pos) with
  | none => none
  | some col_start =>
    some { range := sheet ++ "!" ++ String.mk (pySliceFrom col (pos + 1))
                      ++ toString (col_start + idx),
           majorDimension := "ROWS",
           values := [[value]] }

/-- Embedding of `_get_attendees` (grade.py lines 70-79), applied to the fetched
attendance rows: keeps the rows whose first cell is not the sentinel
`"#N/A"`.  Evaluating `s[0]` on an empty row raises `IndexError`, modelled
as `none`. -/
def _get_attendees : List Row → Option (List Row)
  | [] => some []
  | s :: rest =>
    match s with
    | [] => none
    | x :: _ =>
      match _get_attendees rest with
      | none => none
      | some r => some (if x ≠ "#N/A" then s :: r else r)

/-- A Python `dict` with `String` keys: an insertion-ordered association
list whose keys are pairwise distinct. -/
abbrev Dict (α : Type) := List (String × α)

/-- Python `d[k] = v`: replaces the value at `k` in place when the key is present,
appends the binding otherwise. -/
def dictInsert {α : Type} (d : Dict α) (k : String) (v : α) : Dict α :=
  if d.any (fun p => p.1 == k) then
    d.map (fun p => if p.1 == k then (k, v) else p)
  else d ++ [(k, v)]

/-- Python `d[k]` / `k in d`: lookup by key. -/
def dictLookup {α : Type} (d : Dict α) (k : String) : Option α :=
  match d.find? (fun p => p.1 == k) with
  | some p => some p.2
  | none => none

/-- The padding step
`stud_grades += [[]] * (len(stud_names) - len(stud_grades))`; a negative
repeat count yields the empty list in Python, matching `Nat` subtraction. -/
def padded_grades (stud_names stud_grades : List Row) : List Row :=
  stud_grades ++ List.replicate (stud_names.length - stud_grades.length) []

/-- Embedding of `_get_register_range` (grade.py lines 82-100), given the two fetched
ranges (id column and grade column) of one worksheet: the dict built by
`{ k[0]: (v, i) for i, (k, v) in enumerate(both) }` after padding, mapping
each id row's first cell to (grade row, index).  `none` models the
`IndexError` of `k[0]` on an empty id row. -/
def _get_register_range (stud_names stud_grades : List Row) :
    Option (Dict (Row × Nat)) :=
  if stud_names.all (fun k => !k.isEmpty) = true then
    some (((stud_names.zip (padded_grades stud_names stud_grades)).enum).foldl
      (fun d p => dictInsert d p.2.1.head! (p.2.2, p.1)) [])
  else none

/-- Truthiness of the optional `ta` argument (`if ta:`): `None` and the
empty string are falsy. -/
def taActive : Option String → Bool
  | none => false
  | some s => !(s == "")

/-- The diagnostic printed for an already-graded student
(grade.py line 152). -/
def already_graded_msg (stud : String) (lab_no : Nat) : String :=
  "Error: student \"" ++ stud ++ "\" has already been graded for lab "
    ++ toString lab_no ++ "."

/-- The code's emptiness test on a reconciled entry
(`len(reg_range[stud][0]) == 0`, grade.py line 145). -/
def cell_is_empty (v : Row) : Bool := v.length == 0

/-- The spec's wording of the planner's content test, stated for comparison
with the code: "existing cell has content" iff the first element of the
per-student list is a non-empty string (no first element counts as empty). -/
def has_content_spec (v : Row) : Bool :=
  match v with
  | [] => false
  | x :: _ => !(x == "")

/-- The body of the per-student loop of `main` (grade.py lines 144-152) for
one attendee `(stud, grade)` against one worksheet's reconciled dict: the
`ValueRange`s appended to the request body and the diagnostic lines
printed.  `none` models a crash: `KeyError` on a missing `ta_col`, or a
`ValueError` inside `_make_value_range`. -/
def plan_student (sheet : String) (lab_no : Nat) (lab_col : List Char)
    (ta_col : Option (List Char)) (ta : Option String)
    (reg_range : Dict (Row × Nat)) (stud grade : String) :
    Option (List ValueRange × List String) :=
  match dictLookup reg_range stud with
  | some (v, idx) =>
    if cell_is_empty v then
      match _make_value_range sheet lab_col idx grade with
      | none => none
      | some w =>
        if taActive ta then
          match ta_col with
          | none => none
          | some tc =>
            match _make_value_range sheet tc idx (ta.getD "") with
            | none => none
            | some w2 => some ([w, w2], [])
        else some ([w], [])
    else some ([], [already_graded_msg stud lab_no])
  | none => some ([], [])

/-- The per-student loop of `main` over the attendee list, for one
worksheet: concatenates, in order, the writes and diagnostics of
`plan_student` for each attendee. -/
def plan_students (sheet : String) (lab_no : Nat) (lab_col : List Char)
    (ta_col : Option (List Char)) (ta : Option String)
    (reg_range : Dict (Row × Nat)) :
    List (String × String) → Option (List ValueRange × List String)
  | [] => some ([], [])
  | (stud, grade) :: rest =>
    match plan_student sheet lab_no lab_col ta_col ta reg_range stud grade with
    | none => none
    | some (w, d) =>
      match plan_students sheet lab_no lab_col ta_col ta reg_range rest with
      | none => none
      | some (ws, ds) => some (w ++ ws, d ++ ds)

/-- One fetched worksheet: its name and the two ranges returned by the
batched read (the id column and the lab's grade column). -/
structure SheetData where
  name : String
  stud_names : List Row
  stud_grades : List Row
  deriving Repr

/-- The planning phase of `main` (grade.py lines 141-152) across all
worksheets: for each worksheet, reconcile and run the per-student loop,
collecting the request body entries and the diagnostics in order. -/
def plan_run (lab_no : Nat) (lab_col : List Char) (ta_col : Option (List Char))
    (ta : Option String) (students_lab : List (String × String)) :
    List SheetData → Option (List ValueRange × List String)
  | [] => some ([], [])
  | sd :: rest =>
    match _get_register_range sd.stud_names sd.stud_grades with
    | none => none
    | some reg =>
      match plan_students sd.name lab_no lab_col ta_col ta reg students_lab with
      | none => none
      | some (w, d) =>
        match plan_run lab_no lab_col ta_col ta students_lab rest with
        | none => none
        | some (ws, ds) => some (w ++ ws, d ++ ds)

/-- The result-reporting step of `main` (grade.py lines 162-171): the lines
printed after the batched update, from the attendee count, the
`totalUpdatedCells` of the response, and the `updatedRange` of each response
entry. -/
def report (ta : Option String) (n_attendees updated_cells : Nat)
    (updated_ranges : List String) : List String :=
  if (!taActive ta && updated_cells == n_attendees)
      || (taActive ta && updated_cells == 2 * n_attendees) then
    ["All students are graded!"]
  else if updated_cells != 0 then
    ("Modified " ++ toString updated_cells ++ " cells:") :: updated_ranges
  else
    ["Fucked up completely: cells modified!"]

/-- The row a computed cell address refers to: the maximal trailing run of
decimal digits of the range string. -/
def rowSuffix (s : String) : String :=
  String.mk ((s.toList.reverse.takeWhile Char.isDigit).reverse)

/-- C10: the attendance filter inspects element 0 of every fetched row:
when each row has at least one cell the read is total and never goes out of
bounds, while an input containing an empty row makes the read fail
(`IndexError`) instead of filtering the row out. -/
theorem attendees_total_on_nonempty_rows :
    (∀ rows : List Row, (∀ s ∈ rows, s ≠ []) → (_get_attendees rows).isSome = true) ∧
    _get_attendees [["A", "5"], []] = none := by
  constructor
  · intro rows h
    induction rows with
    | nil => rfl
    | cons s rest ih =>
      cases s with
      | nil => exact absurd rfl (h [] (List.mem_cons_self [] rest))
      | cons x xs =>
        have hrest := ih (fun t ht => h t (List.mem_cons_of_mem _ ht))
        simp only [_get_attendees]
        cases hrec : _get_attendees rest with
        | none => rw [hrec] at hrest; simp at hrest
        | some r => simp
  · rfl

/-- Witness for C10 at a concrete input: a one-row, all-rows-nonempty
attendance read succeeds. -/
theorem attendees_total_on_nonempty_rows_witness :
    (_get_attendees [["S1", "9"]]).isSome = true :=
  attendees_total_on_nonempty_rows.1 [["S1", "9"]] (by decide)

/-- C6: a fetched attendance row is excluded exactly when its student id
(the first cell) is the literal "#N/A", regardless of the grade value: the
output is the input filtered by that single test, and nothing else is
dropped or validated. -/
theorem attendance_filter_exactly_na (rows : List Row) (h : ∀ s ∈ rows, s ≠ []) :
    _get_attendees rows = some (rows.filter (fun t => !(t.head! == "#N/A"))) ∧
    ∀ s ∈ rows, (s ∈ rows.filter (fun t => !(t.head! == "#N/A")) ↔ s.head! ≠ "#N/A") := by
  constructor
  · induction rows with
    | nil => rfl
    | cons s rest ih =>
      cases s with
      | nil => exact absurd rfl (h [] (List.mem_cons_self [] rest))
      | cons x xs =>
        have hrec := ih (fun t ht => h t (List.mem_cons_of_mem _ ht))
        simp only [_get_attendees, hrec, List.filter_cons]
        by_cases hx : x = "#N/A"
        · subst hx; simp [List.head!]
        · simp [List.head!, hx]
  · intro s hs
    simp [List.mem_filter, hs]

/-- Witness for C6 at a concrete input: the "#N/A" row is dropped, the
rest are kept. -/
theorem attendance_filter_exactly_na_witness :
    _get_attendees [["S1", "9"], ["#N/A", "x"]] =
      some ([["S1", "9"], ["#N/A", "x"]].filter (fun t => !(t.head! == "#N/A"))) :=
  (attendance_filter_exactly_na [["S1", "9"], ["#N/A", "x"]] (by decide)).1

/-- C5: an attendee found in the worksheet's reconciled dict with a
non-empty grade entry gets zero writes and exactly one diagnostic of the
exact printed form, and the remaining attendees are still processed. -/
theorem already_graded_diagnostic (sheet : String) (lab_no : Nat) (lab_col : List Char)
    (ta_col : Option (List Char)) (ta : Option String) (reg : Dict (Row × Nat))
    (stud grade : String) (rest : List (String × String)) (v : Row) (idx : Nat)
    (hfound : dictLookup reg stud = some (v, idx)) (hv : v ≠ []) :
    plan_students sheet lab_no lab_col ta_col ta reg ((stud, grade) :: rest) =
      (plan_students sheet lab_no lab_col ta_col ta reg rest).map
        (fun p => (p.1, already_graded_msg stud lab_no :: p.2)) := by
  have hemp : cell_is_empty v = false := by
    cases v with
    | nil => exact absurd rfl hv
    | cons a t => rfl
  simp only [plan_students, plan_student, hfound, hemp]
  cases plan_students sheet lab_no lab_col ta_col ta reg rest with
  | none => rfl
  | some p => obtain ⟨ws, ds⟩ := p; rfl

/-- Witness for C5 at a concrete input: attendee "A" is already graded,
attendee "B" is still processed afterwards. -/
theorem already_graded_diagnostic_witness :
    plan_students "sh" 1 ['D', '2', ':', 'D'] none none [("A", (["5"], 0))]
        [("A", "10"), ("B", "7")] =
      (plan_students "sh" 1 ['D', '2', ':', 'D'] none none [("A", (["5"], 0))]
        [("B", "7")]).map
        (fun p => (p.1, already_graded_msg "A" 1 :: p.2)) :=
  already_graded_diagnostic "sh" 1 ['D', '2', ':', 'D'] none none [("A", (["5"], 0))]
    "A" "10" [("B", "7")] ["5"] 0 (by decide) (by decide)

/-- C2 fails at the fetched per-student grade list [""]: its first element
is the empty string, so the claim's test ("first element non-empty") calls
the cell empty, but the code tests the length of the list, treats the cell
as having content, and skips the student with a diagnostic instead of
writing. -/
theorem content_test_counterexample :
    has_content_spec [""] = false ∧ cell_is_empty [""] = false ∧
    plan_student "sh" 1 ['D', '2', ':', 'D'] none none [("A", ([""], 0))] "A" "10" =
      some ([], [already_graded_msg "A" 1]) := by
  decide

/-- C2 amended: the planner's content test is on the length of the fetched
per-student list: "existing cell has content" exactly when that list is
non-empty as a list, and a student whose row lies beyond the fetched grade
rows receives the padded empty list, which counts as empty. -/
theorem content_test_is_length (v : Row) (names grades : List Row) (i : Nat) :
    (cell_is_empty v = true ↔ v = []) ∧
    (grades.length ≤ i → cell_is_empty ((padded_grades names grades).getD i []) = true) := by
  constructor
  · cases v <;> simp [cell_is_empty]
  · intro hle
    have hrep : ∀ (n j : Nat), (List.replicate n ([] : Row)).getD j [] = [] := by
      intro n
      induction n with
      | zero => intro j; cases j <;> rfl
      | succ m ih => intro j; cases j with
        | zero => rfl
        | succ jj => exact ih jj
    have : (padded_grades names grades).getD i [] = [] := by
      unfold padded_grades
      rw [List.getD_append_right _ _ _ _ hle]
      exact hrep _ _
    rw [this]
    rfl

/-- Witness for C2's amended statement at a concrete input: row 1 has no
fetched grade entry, so its padded entry counts as empty. -/
theorem content_test_is_length_witness :
    cell_is_empty ((padded_grades [["A"], ["B"]] []).getD 1 []) = true :=
  (content_test_is_length ["5"] [["A"], ["B"]] [] 1).2 (by decide)

/-- C8: the three-way reporting classification, in the order the code
tests it: a count equal to the expected number of updates (the attendee
count, doubled when a TA acronym is stamped) prints the full-success line;
otherwise a nonzero count prints the partial line followed by the literal
updated ranges; otherwise (count 0) the total-failure line. -/
theorem report_classification (ta : Option String) (n u : Nat) (rs : List String) :
    (u = (if taActive ta then 2 * n else n) →
      report ta n u rs = ["All students are graded!"]) ∧
    (u ≠ (if taActive ta then 2 * n else n) → u ≠ 0 →
      report ta n u rs = ("Modified " ++ toString u ++ " cells:") :: rs) ∧
    (u ≠ (if taActive ta then 2 * n else n) → u = 0 →
      report ta n u rs = ["Fucked up completely: cells modified!"]) := by
  cases hta : taActive ta with
  | false =>
    refine ⟨fun h => ?_, fun h1 h2 => ?_, fun h1 h2 => ?_⟩ <;>
      simp_all [report]
  | true =>
    refine ⟨fun h => ?_, fun h1 h2 => ?_, fun h1 h2 => ?_⟩ <;>
      simp_all [report]

/-- Witness for C8 at a concrete input: two attendees, no TA stamping, two
updated cells: full success. -/
theorem report_classification_witness :
    report none 2 2 ["r"] = ["All students are graded!"] :=
  (report_classification none 2 2 ["r"]).1 (by decide)

/-- C1 fails across worksheets: a single attendee, present with an empty
grade cell in two worksheets, receives one grade CellWrite per worksheet:
two writes in one run (no TA stamping, so both are grade writes). -/
theorem grade_once_counterexample :
    plan_run 1 ['D', '2', ':', 'D'] none none [("A", "10")]
        [⟨"s1", [["A"]], []⟩, ⟨"s2", [["A"]], []⟩] =
      some ([⟨"s1!D2", "ROWS", [["10"]]⟩, ⟨"s2!D2", "ROWS", [["10"]]⟩], []) := by
  decide

/-- C1 amended: per worksheet, at most one grade CellWrite is emitted for a
given attendee, and only when that attendee's entry in this worksheet's
reconciled dict is empty (any further write in the same step is the single
TA write); across worksheets the check is repeated independently, so a
student ungraded in several worksheets is written once per such worksheet. -/
theorem grade_write_at_most_once_per_sheet (sheet : String) (lab_no : Nat)
    (lab_col : List Char) (ta_col : Option (List Char)) (ta : Option String)
    (reg : Dict (Row × Nat)) (stud grade : String)
    (ws : List ValueRange) (ds : List String)
    (h : plan_student sheet lab_no lab_col ta_col ta reg stud grade = some (ws, ds)) :
    ws = [] ∨
    ∃ idx w, dictLookup reg stud = some ([], idx) ∧
      _make_value_range sheet lab_col idx grade = some w ∧
      (ws = [w] ∨ ∃ w2, ws = [w, w2]) := by
  cases hl : dictLookup reg stud with
  | none =>
    simp only [plan_student, hl, Option.some.injEq, Prod.mk.injEq] at h
    exact Or.inl h.1.symm
  | some p =>
    obtain ⟨v, idx⟩ := p
    cases hv : cell_is_empty v with
    | false =>
      simp only [plan_student, hl, hv, Bool.false_eq_true, if_false, Option.some.injEq,
        Prod.mk.injEq] at h
      exact Or.inl h.1.symm
    | true =>
      have hvnil : v = [] := by
        cases v with
        | nil => rfl
        | cons a t => simp [cell_is_empty] at hv
      subst hvnil
      cases hw : _make_value_range sheet lab_col idx grade with
      | none => simp [plan_student, hl, hw, cell_is_empty] at h
      | some w =>
        right
        refine ⟨idx, w, rfl, hw, ?_⟩
        cases hta : taActive ta with
        | false =>
          simp only [plan_student, hl, hv, hw, hta, if_true, Bool.false_eq_true, if_false,
            Option.some.injEq, Prod.mk.injEq] at h
          exact Or.inl h.1.symm
        | true =>
          cases htc : ta_col with
          | none => simp [plan_student, hl, hw, hta, htc, cell_is_empty] at h
          | some tc =>
            cases hw2 : _make_value_range sheet tc idx (ta.getD "") with
            | none => simp [plan_student, hl, hw, hta, htc, hw2, cell_is_empty] at h
            | some w2 =>
              simp only [plan_student, hl, hv, hw, hta, htc, hw2, if_true,
                Option.some.injEq, Prod.mk.injEq] at h
              exact Or.inr ⟨w2, h.1.symm⟩

/-- Witness for C1's amended statement at a concrete input: one ungraded
attendee in one worksheet yields one grade write. -/
theorem grade_write_at_most_once_per_sheet_witness :
    ([⟨"sh!D2", "ROWS", [["10"]]⟩] : List ValueRange) = [] ∨
    ∃ idx w, dictLookup [("A", (([] : Row), 0))] "A" = some ([], idx) ∧
      _make_value_range "sh" ['D', '2', ':', 'D'] idx "10" = some w ∧
      (([⟨"sh!D2", "ROWS", [["10"]]⟩] : List ValueRange) = [w] ∨
        ∃ w2, ([⟨"sh!D2", "ROWS", [["10"]]⟩] : List ValueRange) = [w, w2]) :=
  grade_write_at_most_once_per_sheet "sh" 1 ['D', '2', ':', 'D'] none none
    [("A", ([], 0))] "A" "10" [⟨"sh!D2", "ROWS", [["10"]]⟩] [] (by decide)

/-- Python `find` hits the first colon when nothing before it is a colon. -/
theorem pyFind_append_colon (l t : List Char) (h : ':' ∉ l) :
    pyFind (l ++ ':' :: t) ':' = (l.length : Int) := by
  induction l with
  | nil => simp [pyFind]
  | cons x rest ih =>
    have hx : (x == ':') = false := by
      simp only [beq_eq_false_iff_ne]
      intro he
      exact h (he ▸ List.mem_cons_self x rest)
    have hrest := ih (fun hm => h (List.mem_cons_of_mem _ hm))
    rw [List.cons_append, pyFind, hx]
    simp only [Bool.false_eq_true, if_false, hrest]
    rw [if_neg (by omega), List.length_cons]
    push_cast
    ring

/-- A slice bound given as a natural number is just clamped to the length. -/
theorem sliceBound_natCast (n m : Nat) : sliceBound n (m : Int) = min m n := by
  unfold sliceBound
  rw [if_neg (by omega)]
  simp

/-- The one-character Python slice `s[pos-1:pos]` right before the element
at index `l.length`. -/
theorem pySlice_pick (l t : List Char) (x : Char) :
    pySlice (l ++ x :: t) ((l.length : Nat) : Int) (((l.length + 1 : Nat)) : Int) = [x] := by
  unfold pySlice
  rw [sliceBound_natCast, sliceBound_natCast]
  rw [min_eq_left (by simp), min_eq_left (by simp)]
  have htake : (l ++ x :: t).take (l.length + 1) = l ++ [x] := by
    rw [show l ++ x :: t = (l ++ [x]) ++ t by simp]
    exact List.take_left' (by simp)
  rw [htake]
  exact List.drop_left l [x]

/-- The Python slice `s[a:]` starting right at a suffix. -/
theorem pySliceFrom_at_length (l t : List Char) :
    pySliceFrom (l ++ t) ((l.length : Nat) : Int) = t := by
  unfold pySliceFrom
  rw [sliceBound_natCast, min_eq_left (by simp)]
  exact List.drop_left l t

/-- Evaluation of `_make_value_range` on a well-formed range template
`cs ++ [d] ++ ":" ++ cs` (column letters, one start-row digit, colon,
column letters): the computed range is
`sheet ++ "!" ++ cs ++ toString (digit + idx)`. -/
theorem make_value_range_template (sheet value : String) (cs : List Char) (d : Char)
    (hc : ':' ∉ cs) (hd : d.isDigit = true) (idx : Nat) :
    _make_value_range sheet (cs ++ d :: ':' :: cs) idx value =
      some ⟨sheet ++ "!" ++ String.mk cs ++ toString ((d.toNat - 48) + idx),
            "ROWS", [[value]]⟩ := by
  have hdc : ':' ∉ cs ++ [d] := by
    intro hm
    rcases List.mem_append.mp hm with h1 | h1
    · exact hc h1
    · have : d = ':' := (List.mem_singleton.mp h1).symm
      rw [this] at hd
      exact absurd hd (by decide)
  have hfind : pyFind (cs ++ d :: ':' :: cs) ':' = ((cs.length + 1 : Nat) : Int) := by
    rw [show cs ++ d :: ':' :: cs = (cs ++ [d]) ++ ':' :: cs by simp]
    rw [pyFind_append_colon _ _ hdc]
    simp
  have e1 : ((cs.length + 1 : Nat) : Int) - 1 = ((cs.length : Nat) : Int) := by
    push_cast
    ring
  have hint : int_of_digits? [d] = some (d.toNat - 48) := by
    unfold int_of_digits?
    rw [if_pos ⟨by simp, by simp [hd]⟩]
    simp
  have hfrom : pySliceFrom (cs ++ d :: ':' :: cs) (((cs.length + 1 : Nat) : Int) + 1) = cs := by
    rw [show cs ++ d :: ':' :: cs = (cs ++ [d, ':']) ++ cs by simp]
    rw [show (((cs.length + 1 : Nat) : Int) + 1) = (((cs ++ [d, ':']).length : Nat) : Int) by
      simp; omega]
    exact pySliceFrom_at_length _ _
  simp only [_make_value_range, hfind, e1, pySlice_pick, hint, hfrom]

/-- C3: for every range template made of column letters, a single start-row
digit, a colon, and the column letters again (e.g. "D2:D"), and every row
offset, the computed target range is the worksheet name, the column
letters, and (start row + offset); in particular "D2:D" at offset 3
addresses D5. -/
theorem template_address_correct (sheet value : String) (cs : List Char) (d : Char)
    (idx : Nat) (hc : ':' ∉ cs) (hd : d.isDigit = true) :
    _make_value_range sheet (cs ++ d :: ':' :: cs) idx value =
      some ⟨sheet ++ "!" ++ String.mk cs ++ toString ((d.toNat - 48) + idx),
            "ROWS", [[value]]⟩ :=
  make_value_range_template sheet value cs d hc hd idx

/-- Witness for C3 at the spec's own example: template "D2:D", offset 3,
target cell D5. -/
theorem template_address_correct_witness :
    _make_value_range "X" (['D'] ++ '2' :: ':' :: ['D']) 3 "9" =
      some ⟨"X!D5", "ROWS", [["9"]]⟩ :=
  (template_address_correct "X" "9" ['D'] '2' 3 (by decide) (by decide)).trans (by decide)

/-- C4 amended: for an attendee found with an empty grade entry, exactly
one grade CellWrite is emitted and — when the TA acronym is active and a TA
column is configured — exactly one additional TA CellWrite; both are
computed at the same row offset, and they address the same absolute row
exactly when the two column templates carry the same starting-row digit
(with different start digits the rows differ, see the counterexample). -/
theorem graded_student_writes (sheet : String) (lab_no : Nat)
    (cs1 : List Char) (d1 : Char) (cs2 : List Char) (d2 : Char)
    (ta : Option String) (reg : Dict (Row × Nat)) (stud grade : String) (idx : Nat)
    (hfound : dictLookup reg stud = some ([], idx))
    (h1 : ':' ∉ cs1) (hd1 : d1.isDigit = true)
    (h2 : ':' ∉ cs2) (hd2 : d2.isDigit = true) :
    plan_student sheet lab_no (cs1 ++ d1 :: ':' :: cs1)
        (some (cs2 ++ d2 :: ':' :: cs2)) ta reg stud grade =
      some ((if taActive ta then
          [⟨sheet ++ "!" ++ String.mk cs1 ++ toString ((d1.toNat - 48) + idx),
            "ROWS", [[grade]]⟩,
           ⟨sheet ++ "!" ++ String.mk cs2 ++ toString ((d2.toNat - 48) + idx),
            "ROWS", [[ta.getD ""]]⟩]
        else
          [⟨sheet ++ "!" ++ String.mk cs1 ++ toString ((d1.toNat - 48) + idx),
            "ROWS", [[grade]]⟩]), []) ∧
    (d1 = d2 → ∃ r : Nat,
      sheet ++ "!" ++ String.mk cs1 ++ toString ((d1.toNat - 48) + idx) =
        sheet ++ "!" ++ String.mk cs1 ++ toString r ∧
      sheet ++ "!" ++ String.mk cs2 ++ toString ((d2.toNat - 48) + idx) =
        sheet ++ "!" ++ String.mk cs2 ++ toString r) := by
  constructor
  · have hw1 := make_value_range_template sheet grade cs1 d1 h1 hd1 idx
    have hw2 := make_value_range_template sheet (ta.getD "") cs2 d2 h2 hd2 idx
    cases hta : taActive ta with
    | false => simp [plan_student, hfound, hw1, hta, cell_is_empty]
    | true => simp [plan_student, hfound, hw1, hw2, hta, cell_is_empty]
  · intro he
    subst he
    exact ⟨(d1.toNat - 48) + idx, rfl, rfl⟩

/-- Witness for C4's amended statement at a concrete input: grade template
"D2:D", TA template "E3:E", TA acronym "AB", one ungraded attendee. -/
theorem graded_student_writes_witness :
    plan_student "sh" 1 (['D'] ++ '2' :: ':' :: ['D'])
        (some (['E'] ++ '3' :: ':' :: ['E'])) (some "AB")
        [("A", (([] : Row), 0))] "A" "10" =
      some ([⟨"sh!D2", "ROWS", [["10"]]⟩, ⟨"sh!E3", "ROWS", [["AB"]]⟩], []) :=
  ((graded_student_writes "sh" 1 ['D'] '2' ['E'] '3' (some "AB")
      [("A", (([] : Row), 0))] "A" "10" 0
      (by decide) (by decide) (by decide) (by decide) (by decide)).1).trans (by decide)

/-- C4 fails on "both CellWrites addressing the same row": with grade
template "D2:D" and TA template "E3:E", the grade write and the TA write
for the same student (row offset 0) are addressed at rows 2 and 3. -/
theorem ta_write_same_row_counterexample :
    plan_student "sh" 1 ['D', '2', ':', 'D'] (some ['E', '3', ':', 'E']) (some "AB")
        [("A", ([], 0))] "A" "10" =
      some ([⟨"sh!D2", "ROWS", [["10"]]⟩, ⟨"sh!E3", "ROWS", [["AB"]]⟩], []) ∧
    rowSuffix "sh!D2" ≠ rowSuffix "sh!E3" := by
  decide

/-- An in-place dict update finds the key it just wrote. -/
theorem find?_map_update {α : Type} (k : String) (v : α) (d : Dict α)
    (h : d.any (fun p => p.1 == k) = true) :
    (d.map (fun p => if p.1 == k then (k, v) else p)).find?
      (fun p => p.1 == k) = some (k, v) := by
  induction d with
  | nil => simp at h
  | cons p rest ih =>
    cases hp : (p.1 == k) with
    | true =>
      rw [List.map_cons, if_pos hp]
      exact List.find?_cons_of_pos _ (by simp)
    | false =>
      rw [List.map_cons, if_neg (by simp [hp])]
      rw [List.find?_cons_of_neg _ (by simp [hp])]
      apply ih
      simp only [List.any_cons, hp, Bool.false_or] at h
      exact h

/-- Lookup by `find?` skips a prefix in which no entry matches the key. -/
theorem find?_append_of_no_match {α : Type} (k : String) (d l : Dict α)
    (h : d.any (fun p => p.1 == k) = false) :
    (d ++ l).find? (fun p => p.1 == k) = l.find? (fun p => p.1 == k) := by
  rw [List.find?_append]
  have hd : d.find? (fun p => p.1 == k) = none := by
    rw [List.find?_eq_none]
    exact List.any_eq_false.mp h
  rw [hd]
  rfl

/-- Looking up the key just inserted yields the inserted value. -/
theorem dictLookup_insert_self {α : Type} (d : Dict α) (k : String) (v : α) :
    dictLookup (dictInsert d k v) k = some v := by
  have hfind : (dictInsert d k v).find? (fun p => p.1 == k) = some (k, v) := by
    unfold dictInsert
    cases hmem : d.any (fun p => p.1 == k) with
    | true =>
      rw [if_pos rfl]
      exact find?_map_update k v d hmem
    | false =>
      rw [if_neg (by simp)]
      rw [find?_append_of_no_match k d _ hmem]
      exact List.find?_cons_of_pos _ (by simp)
  unfold dictLookup
  rw [hfind]

/-- Inserting under one key leaves every other key's lookup unchanged. -/
theorem dictLookup_insert_other {α : Type} (d : Dict α) (k k' : String) (v : α)
    (hkk : (k == k') = false) :
    dictLookup (dictInsert d k v) k' = dictLookup d k' := by
  have hfind : (dictInsert d k v).find? (fun p => p.1 == k') =
      d.find? (fun p => p.1 == k') := by
    unfold dictInsert
    cases hmem : d.any (fun p => p.1 == k) with
    | true =>
      rw [if_pos rfl]
      clear hmem
      induction d with
      | nil => rfl
      | cons p rest ih =>
        rw [List.map_cons]
        cases hp : (p.1 == k) with
        | true =>
          have hp' : p.1 = k := eq_of_beq hp
          rw [if_pos rfl]
          simp only [List.find?_cons, show (k == k') = false from hkk,
            show (p.1 == k') = false from by rw [hp']; exact hkk]
          exact ih
        | false =>
          rw [if_neg (by simp)]
          cases hq : (p.1 == k') with
          | true =>
            simp only [List.find?_cons, hq]
          | false =>
            simp only [List.find?_cons, hq]
            exact ih
    | false =>
      rw [if_neg (by simp), List.find?_append]
      rw [List.find?_cons_of_neg _ (by simp [hkk])]
      simp
  unfold dictLookup
  rw [hfind]

/-- Inserting keeps the keys pairwise distinct. -/
theorem dictInsert_keys_nodup {α : Type} (d : Dict α) (k : String) (v : α)
    (h : (d.map Prod.fst).Nodup) : ((dictInsert d k v).map Prod.fst).Nodup := by
  unfold dictInsert
  cases hmem : d.any (fun p => p.1 == k) with
  | true =>
    rw [if_pos rfl]
    have hkeys : (d.map (fun p => if p.1 == k then (k, v) else p)).map Prod.fst =
        d.map Prod.fst := by
      rw [List.map_map]
      apply List.map_congr_left
      intro p hp
      cases hq : (p.1 == k) with
      | true =>
        simp only [Function.comp]
        rw [if_pos hq]
        exact (eq_of_beq hq).symm
      | false =>
        simp only [Function.comp]
        rw [if_neg (by simp [hq])]
    rw [hkeys]
    exact h
  | false =>
    rw [if_neg (by simp)]
    rw [List.map_append, List.nodup_append]
    refine ⟨h, by simp, ?_⟩
    intro a ha hb
    simp only [List.map_cons, List.map_nil, List.mem_singleton] at hb
    rw [List.mem_map] at ha
    obtain ⟨p, hp, hpk⟩ := ha
    have : d.any (fun q => q.1 == k) = true :=
      List.any_eq_true.mpr ⟨p, hp, by simp [hpk, hb]⟩
    rw [hmem] at this
    exact absurd this (by simp)

/-- The reconciliation fold keeps the dict's keys pairwise distinct. -/
theorem foldl_dictInsert_keys (l : List (Nat × (Row × Row))) (d : Dict (Row × Nat))
    (h : (d.map Prod.fst).Nodup) :
    (((l.foldl (fun d p => dictInsert d p.2.1.head! (p.2.2, p.1)) d)).map Prod.fst).Nodup := by
  induction l generalizing d with
  | nil => exact h
  | cons p rest ih => exact ih _ (dictInsert_keys_nodup d _ _ h)

/-- Lookup after the reconciliation fold: the last processed entry whose id
matches the key wins; with no match the initial dict answers. -/
theorem foldl_dictInsert_lookup (l : List (Nat × (Row × Row))) (d : Dict (Row × Nat))
    (k : String) :
    dictLookup (l.foldl (fun d p => dictInsert d p.2.1.head! (p.2.2, p.1)) d) k =
      ((l.filter (fun p => p.2.1.head! == k)).getLast?).elim (dictLookup d k)
        (fun p => some (p.2.2, p.1)) := by
  induction l generalizing d with
  | nil => simp
  | cons p rest ih =>
    rw [List.foldl_cons, ih]
    cases hp : (p.2.1.head! == k) with
    | true =>
      simp only [List.filter_cons, hp, if_true]
      cases hfe : rest.filter (fun q => q.2.1.head! == k) with
      | nil =>
        simp only [List.getLast?_nil, Option.elim, List.getLast?_singleton]
        rw [show p.2.1.head! = k from eq_of_beq hp, dictLookup_insert_self]
      | cons a b =>
        rw [List.getLast?_cons_cons]
        cases hq : (a :: b).getLast? with
        | none => simp at hq
        | some q => rfl
    | false =>
      simp only [List.filter_cons, hp, Bool.false_eq_true, if_false]
      cases hq : (rest.filter (fun q => q.2.1.head! == k)).getLast? with
      | none =>
        simp only [Option.elim]
        exact dictLookup_insert_other d _ k _ hp
      | some q => rfl

/-- Characterization of a reconciledlookup: the last row of the padded,
enumerated pairing whose id cell matches the key. -/
theorem register_range_lookup (names grades : List Row) (d : Dict (Row × Nat))
    (hreg : _get_register_range names grades = some d) (k : String) :
    dictLookup d k =
      (((names.zip (padded_grades names grades)).enum.filter
          (fun p => p.2.1.head! == k)).getLast?).elim none
        (fun p => some (p.2.2, p.1)) := by
  unfold _get_register_range at hreg
  cases hall : names.all (fun r => !r.isEmpty) with
  | false =>
    rw [if_neg (by simp [hall])] at hreg
    exact absurd hreg (by simp)
  | true =>
    rw [if_pos hall] at hreg
    injection hreg with hd
    subst hd
    rw [foldl_dictInsert_lookup]
    rfl

/-- The grade list padded with empty placeholders is at least as long as
the id list. -/
theorem padded_grades_length_ge (names grades : List Row) :
    names.length ≤ (padded_grades names grades).length := by
  unfold padded_grades
  rw [List.length_append, List.length_replicate]
  omega

/-- A list of empty placeholder rows only ever yields the empty row. -/
theorem replicate_nil_getD (n j : Nat) :
    (List.replicate n ([] : Row)).getD j [] = [] := by
  induction n generalizing j with
  | zero => cases j <;> rfl
  | succ m ih =>
    cases j with
    | zero => rfl
    | succ jj => exact ih jj

/-- Reading the padded grade list at any index: the fetched grade row when
one exists, the empty placeholder otherwise. -/
theorem padded_grades_getD (names grades : List Row) (i : Nat) :
    (padded_grades names grades).getD i [] = grades.getD i [] := by
  unfold padded_grades
  rcases Nat.lt_or_ge i grades.length with hg | hg
  · rw [List.getD_append _ _ _ _ hg]
  · rw [List.getD_append_right _ _ _ _ hg, List.getD_eq_default _ _ hg]
    exact replicate_nil_getD _ _

/-- Lookup of the id at a last-occurrence position `i`: the reconciled dict
maps it to the padded grade row and row offset `i`. -/
theorem register_range_lookup_last (names grades : List Row) (d : Dict (Row × Nat))
    (hreg : _get_register_range names grades = some d)
    (i : Nat) (hi : i < names.length)
    (hlast : ∀ (j : Nat) (hj : j < names.length), i < j →
      (names[j]).head! ≠ (names[i]).head!) :
    dictLookup d ((names[i]).head!) =
      some ((padded_grades names grades).getD i [], i) := by
  have hPlen : names.length ≤ (padded_grades names grades).length :=
    padded_grades_length_ge names grades
  have hElen : ((names.zip (padded_grades names grades)).enum).length = names.length := by
    rw [List.enum_length, List.length_zip]
    omega
  have hiE : i < ((names.zip (padded_grades names grades)).enum).length := by omega
  have hiP : i < (padded_grades names grades).length := by omega
  have hEi : ((names.zip (padded_grades names grades)).enum)[i] =
      (i, (names[i], (padded_grades names grades)[i])) := by
    rw [List.getElem_enum, List.getElem_zip]
  rw [register_range_lookup names grades d hreg]
  have hdrop : (((names.zip (padded_grades names grades)).enum).drop (i + 1)).filter
      (fun p => p.2.1.head! == (names[i]).head!) = [] := by
    rw [List.filter_eq_nil_iff]
    intro p hp
    rw [List.mem_iff_getElem] at hp
    obtain ⟨m, hm, hpm⟩ := hp
    rw [List.length_drop] at hm
    have hlt : i + 1 + m < ((names.zip (padded_grades names grades)).enum).length := by
      omega
    have hj : i + 1 + m < names.length := by omega
    have hjP : i + 1 + m < (padded_grades names grades).length := by omega
    have hpE : p = (i + 1 + m, (names[i + 1 + m],
        (padded_grades names grades)[i + 1 + m])) := by
      rw [← hpm, List.getElem_drop, List.getElem_enum, List.getElem_zip]
    rw [hpE]
    simp only [beq_iff_eq]
    exact fun hc => hlast (i + 1 + m) hj (by omega) hc
  have htake : ((names.zip (padded_grades names grades)).enum).take (i + 1) =
      ((names.zip (padded_grades names grades)).enum).take i ++
        [((names.zip (padded_grades names grades)).enum)[i]] := by
    rw [List.take_succ, List.getElem?_eq_getElem hiE]
    rfl
  have hfiltake : (((names.zip (padded_grades names grades)).enum).take (i + 1)).filter
      (fun p => p.2.1.head! == (names[i]).head!) =
      (((names.zip (padded_grades names grades)).enum).take i).filter
        (fun p => p.2.1.head! == (names[i]).head!) ++
        [((names.zip (padded_grades names grades)).enum)[i]] := by
    rw [htake, List.filter_append]
    congr 1
    have hpos : ((((names.zip (padded_grades names grades)).enum)[i]).2.1.head! ==
        (names[i]).head!) = true := by
      rw [hEi]
      simp
    simp only [List.filter_cons, hpos, if_true, List.filter_nil]
  conv_lhs =>
    rw [show (names.zip (padded_grades names grades)).enum =
      ((names.zip (padded_grades names grades)).enum).take (i + 1) ++
        ((names.zip (padded_grades names grades)).enum).drop (i + 1) from
      (List.take_append_drop _ _).symm]
  rw [List.filter_append, hdrop, List.append_nil, hfiltake, List.getLast?_concat]
  rw [hEi]
  simp only [Option.elim]
  rw [List.getD_eq_getElem _ _ hiP]

/-- C7: when the grade-column fetch is shorter than the id-column fetch
and ids are distinct, the Reconciler pads the grade list with empty
placeholders up to the id list's length, and every id's row offset in the
mapping equals its positional index in the id list; the paired contents are
the fetched grade row when one was fetched for that row and the empty
placeholder otherwise. -/
theorem padding_preserves_alignment (names grades : List Row) (d : Dict (Row × Nat))
    (hlt : grades.length < names.length)
    (hreg : _get_register_range names grades = some d)
    (hdist : (names.map (fun s => s.head!)).Nodup)
    (i : Nat) (hi : i < names.length) :
    (padded_grades names grades).length = names.length ∧
    dictLookup d ((names[i]).head!) = some (grades.getD i [], i) := by
  constructor
  · unfold padded_grades
    rw [List.length_append, List.length_replicate]
    omega
  · have hlast : ∀ (j : Nat) (hj : j < names.length), i < j →
        (names[j]).head! ≠ (names[i]).head! := by
      intro j hj hij he
      have hjm : j < (names.map (fun s => s.head!)).length := by
        rw [List.length_map]
        exact hj
      have him : i < (names.map (fun s => s.head!)).length := by
        rw [List.length_map]
        exact hi
      have hmap : (names.map (fun s => s.head!))[j] =
          (names.map (fun s => s.head!))[i] := by
        rw [List.getElem_map, List.getElem_map]
        exact he
      have := (List.Nodup.getElem_inj_iff hdist).mp hmap
      omega
    rw [register_range_lookup_last names grades d hreg i hi hlast]
    rw [padded_grades_getD]

/-- Witness for C7 at a concrete input: two id rows, one fetched grade
row: both row offsets equal the positional index, and the second id is
paired with the padding placeholder. -/
theorem padding_preserves_alignment_witness :
    ((padded_grades [["A"], ["B"]] [["x"]]).length = 2 ∧
      dictLookup [("A", (["x"], 0)), ("B", ([], 1))]
        (((([["A"], ["B"]] : List Row)[1]).head!)) =
        some (([["x"]] : List Row).getD 1 [], 1)) :=
  padding_preserves_alignment [["A"], ["B"]] [["x"]]
    [("A", (["x"], 0)), ("B", ([], 1))] (by decide) (by decide) (by decide) 1 (by decide)

/-- C9: in one worksheet's reconciled dict every student id appears as a
key exactly once (the keys are pairwise distinct, and an id is a key
exactly when it heads some fetched id row), and an id occurring at several
rows is mapped to the grade cell contents and row offset of its last
occurrence. -/
theorem register_keys_unique_last_wins (names grades : List Row) (d : Dict (Row × Nat))
    (hreg : _get_register_range names grades = some d) :
    ((d.map Prod.fst).Nodup) ∧
    (∀ k : String, (dictLookup d k).isSome = true ↔ k ∈ names.map (fun s => s.head!)) ∧
    (∀ (i : Nat) (hi : i < names.length),
      (∀ (j : Nat) (hj : j < names.length), i < j →
        (names[j]).head! ≠ (names[i]).head!) →
      dictLookup d ((names[i]).head!) =
        some ((padded_grades names grades).getD i [], i)) := by
  refine ⟨?_, ?_, fun i hi hlast =>
    register_range_lookup_last names grades d hreg i hi hlast⟩
  · unfold _get_register_range at hreg
    cases hall : names.all (fun r => !r.isEmpty) with
    | false =>
      rw [if_neg (by simp [hall])] at hreg
      exact absurd hreg (by simp)
    | true =>
      rw [if_pos hall] at hreg
      injection hreg with hd
      subst hd
      exact foldl_dictInsert_keys _ _ (by simp)
  · intro k
    have hElen : ((names.zip (padded_grades names grades)).enum).length = names.length := by
      have := padded_grades_length_ge names grades
      rw [List.enum_length, List.length_zip]
      omega
    rw [register_range_lookup names grades d hreg k]
    constructor
    · intro hs
      cases hq : (((names.zip (padded_grades names grades)).enum).filter
          (fun p => p.2.1.head! == k)).getLast? with
      | none => rw [hq] at hs; simp at hs
      | some q =>
        have hqmem : q ∈ ((names.zip (padded_grades names grades)).enum).filter
            (fun p => p.2.1.head! == k) := by
          cases hfe : ((names.zip (padded_grades names grades)).enum).filter
              (fun p => p.2.1.head! == k) with
          | nil => rw [hfe] at hq; simp at hq
          | cons a b =>
            rw [hfe] at hq
            have := List.mem_getLast?_eq_getLast (by rw [hq]; rfl :
              q ∈ (a :: b).getLast?)
            obtain ⟨hne, hql⟩ := this
            rw [hql]
            exact List.getLast_mem hne
        rw [List.mem_filter] at hqmem
        obtain ⟨hqE, hqk⟩ := hqmem
        rw [List.mem_iff_getElem] at hqE
        obtain ⟨n, hn, hqn⟩ := hqE
        have hnN : n < names.length := by omega
        have hnP : n < (padded_grades names grades).length := by
          have := padded_grades_length_ge names grades
          omega
        have hqE' : q = (n, (names[n], (padded_grades names grades)[n])) := by
          rw [← hqn, List.getElem_enum, List.getElem_zip]
        rw [hqE'] at hqk
        rw [List.mem_map]
        exact ⟨names[n], List.getElem_mem hnN, eq_of_beq hqk⟩
    · intro hk
      rw [List.mem_map] at hk
      obtain ⟨s, hs, hsk⟩ := hk
      rw [List.mem_iff_getElem] at hs
      obtain ⟨n, hn, hns⟩ := hs
      have hnE : n < ((names.zip (padded_grades names grades)).enum).length := by omega
      have hnP : n < (padded_grades names grades).length := by
        have := padded_grades_length_ge names grades
        omega
      have hmemf : ((names.zip (padded_grades names grades)).enum)[n] ∈
          ((names.zip (padded_grades names grades)).enum).filter
            (fun p => p.2.1.head! == k) := by
        rw [List.mem_filter]
        refine ⟨List.getElem_mem hnE, ?_⟩
        rw [List.getElem_enum, List.getElem_zip]
        simp only [beq_iff_eq]
        rw [hns]
        exact hsk
      cases hq : (((names.zip (padded_grades names grades)).enum).filter
          (fun p => p.2.1.head! == k)).getLast? with
      | some q => rfl
      | none =>
        rw [List.getLast?_eq_none_iff] at hq
        rw [hq] at hmemf
        simp at hmemf

/-- Witness for C9 at a concrete input: the id "A" occurs at rows 0 and 2;
the dict keys are distinct, "A" and "B" are keys, and "A" maps to the
entry of its last occurrence (row offset 2). -/
theorem register_keys_unique_last_wins_witness :
    (([("A", (["5"], 2)), ("B", ([], 1))].map
        (Prod.fst : String × (Row × Nat) → String)).Nodup) ∧
    (∀ k : String, (dictLookup [("A", (["5"], 2)), ("B", ([], 1))] k).isSome = true ↔
      k ∈ ([["A"], ["B"], ["A"]] : List Row).map (fun s => s.head!)) ∧
    (∀ (i : Nat) (hi : i < ([["A"], ["B"], ["A"]] : List Row).length),
      (∀ (j : Nat) (hj : j < ([["A"], ["B"], ["A"]] : List Row).length), i < j →
        ((([["A"], ["B"], ["A"]] : List Row)[j]).head!) ≠
          ((([["A"], ["B"], ["A"]] : List Row)[i]).head!)) →
      dictLookup [("A", (["5"], 2)), ("B", ([], 1))]
          ((([["A"], ["B"], ["A"]] : List Row)[i]).head!) =
        some ((padded_grades [["A"], ["B"], ["A"]] [[], [], ["5"]]).getD i [], i)) :=
  register_keys_unique_last_wins [["A"], ["B"], ["A"]] [[], [], ["5"]]
    [("A", (["5"], 2)), ("B", ([], 1))] (by decide)

end Grade
